import Mathlib

/-!
Verification of the dptree event-dispatch engine against its specification.

Two layers are modelled:

* `Dptree`: the container-based handler core.  The `endpoint` combinator is
  embedded from `src/src/handler/endpoint.rs`; the dependency container, the
  injection mechanism and the node (chain) combinator are not present under
  `src/` and are modelled from the specification text.

* `SimpleDispatcher`: the example program `src/examples/simple_dispatcher.rs`
  (the `Event` type, its text parser, the `Parseable<SetValueEvent>` impl, the
  three handler constructors, the dispatcher assembled in `main`, and the REPL
  driver step).  The shared `AtomicI32` store is threaded explicitly as an
  `Int` state, which is faithful for the sequential REPL the example runs.
-/

/-- Rust `std::ops::ControlFlow`: `Break` is a terminal outcome, `Continue`
carries a value onward to the next handler in the chain. -/
inductive CtrlFlow (B C : Type) where
  | Break (b : B)
  | Continue (c : C)
deriving DecidableEq, Repr

namespace Dptree

/-- Modelled from the spec: the dependency `Container` is a type-keyed value
pool (`di::DependencyMap` is not under `src/`).  Type identifiers and stored
values are both represented by `Nat`; at most the first entry per key is
visible, matching the at-most-one-live-value-per-type invariant. -/
abbrev Container := List (Nat × Nat)

/-- Modelled from the spec: typed lookup `get` on the container. -/
def Container.get (c : Container) (t : Nat) : Option Nat :=
  (c.find? (fun p => p.1 == t)).map (fun p => p.2)

/-- Modelled from the spec: the injection mechanism extracts each declared
parameter from the container by exact type, in declared order; it fails as a
whole when any one of them is absent. -/
def extractArgs (c : Container) : List Nat → Option (List Nat)
  | [] => some []
  | t :: ts =>
    match c.get t with
    | some v => (extractArgs c ts).map (fun vs => v :: vs)
    | none => none

/-- Modelled from the spec: an injectable function exposes its declared
parameter types (`input_types`) and a way to run on the extracted values
(`di::Injectable` is not under `src/`). -/
structure Injectable (Output : Type) where
  input_types : List Nat
  run : List Nat → Output

/-- Modelled from the spec: `obligations` is the mandatory subset of the
declared input types; for an injectable function every declared parameter is
mandatory, so the two lists coincide. -/
def Injectable.obligations {O : Type} (f : Injectable O) : List Nat :=
  f.input_types

/-- Modelled from the spec: the `DependencyMissing` failure condition raised
when an injectable handler requires a type absent from the container. -/
inductive DispatchError where
  | DependencyMissing
deriving DecidableEq, Repr

/-- Modelled from the spec: `Injectable::inject` binds the container to the
function, producing a zero-argument invocable, or fails with
`DependencyMissing` when a required type is absent. -/
def Injectable.inject {O : Type} (f : Injectable O) (c : Container) :
    Except DispatchError (Unit → O) :=
  match extractArgs c f.input_types with
  | some vs => Except.ok (fun _ => f.run vs)
  | none => Except.error DispatchError.DependencyMissing

/-- The run-time signature attached to a handler, from
`src/src/handler/endpoint.rs`: `HandlerSignature::Other` holds the input
types, the output types and the obligations as unordered sets (`HashSet` in
the source, `Finset` here). -/
inductive HandlerSignature where
  | Other (input_types : Finset Nat) (output_types : Finset Nat)
      (obligations : Finset Nat)
deriving DecidableEq

/-- A handler over the container: its runnable part returns `Break` with a
final output, `Continue` with the (possibly updated) container, or a
`DispatchError`; a `HandlerSignature` is attached at construction. -/
structure CHandler (O : Type) where
  run : Container → Except DispatchError (CtrlFlow O Container)
  sig : HandlerSignature

/-- The `endpoint` combinator from `src/src/handler/endpoint.rs`: injects `f`
from the container and maps the call's result through `ControlFlow::Break`;
the attached signature is `HandlerSignature::Other` with `F::input_types()`,
an empty `output_types` set, and `F::obligations()`. -/
def endpoint {O : Type} (f : Injectable O) : CHandler O where
  run := fun x => (f.inject x).map (fun g => CtrlFlow.Break (g ()))
  sig := HandlerSignature.Other f.input_types.toFinset ∅ f.obligations.toFinset

/-- Modelled from the spec: evaluation of a node's ordered handler list, left
to right; the first `Break` is returned immediately, a `Continue` threads its
container to the next handler, and exhaustion yields `Continue` with the final
container.  A `DispatchError` is fatal to the dispatch call. -/
def runNode {O : Type} (hs : List (CHandler O)) (c : Container) :
    Except DispatchError (CtrlFlow O Container) :=
  match hs with
  | [] => Except.ok (CtrlFlow.Continue c)
  | h :: rest =>
    match h.run c with
    | Except.ok (CtrlFlow.Break o) => Except.ok (CtrlFlow.Break o)
    | Except.ok (CtrlFlow.Continue c2) => runNode rest c2
    | Except.error e => Except.error e

/-- Modelled from the spec: the node builder accumulates handlers in
declaration order. -/
structure NodeBuilder (O : Type) where
  handlers : List (CHandler O)

/-- Modelled from the spec: `node()` starts an empty chain. -/
def node {O : Type} : NodeBuilder O := ⟨[]⟩

/-- Modelled from the spec: `.and(handler)` appends to the chain. -/
def NodeBuilder.and {O : Type} (b : NodeBuilder O) (h : CHandler O) :
    NodeBuilder O :=
  ⟨b.handlers ++ [h]⟩

/-- Modelled from the spec: `.build()` turns the accumulated chain into a
handler whose runnable part is `runNode`. -/
def NodeBuilder.build {O : Type} (b : NodeBuilder O) : CHandler O where
  run := runNode b.handlers
  sig := HandlerSignature.Other ∅ ∅ ∅

end Dptree

namespace SimpleDispatcher

/-- The `SetValueEvent` newtype from `src/examples/simple_dispatcher.rs`,
wrapping the `i32` value the user wants to store. -/
structure SetValueEvent where
  val : Int
deriving DecidableEq, Repr

/-- The `Event` enumeration from `src/examples/simple_dispatcher.rs`. -/
inductive Event where
  | Ping
  | SetValue (e : SetValueEvent)
  | PrintValue
deriving DecidableEq, Repr

/-- Reads a nonempty all-digit character list as a natural number (the digit
loop inside Rust `str::parse::<i32>`); fails on a non-digit. -/
def digitsToNat (acc : Nat) : List Char → Option Nat
  | [] => some acc
  | c :: cs =>
    if c.isDigit then digitsToNat (acc * 10 + (c.toNat - 48)) cs
    else none

/-- Parses an optionally signed digit string times the sign, range-checked
against `i32` bounds, continuing `parseI32` after the sign is stripped. -/
def parseDigits (sign : Int) (cs : List Char) : Option Int :=
  match cs with
  | [] => none
  | _ :: _ =>
    match digitsToNat 0 cs with
    | some n =>
      let v : Int := sign * Int.ofNat n
      if -2147483648 ≤ v ∧ v ≤ 2147483647 then some v else none
    | none => none

/-- Rust `str::parse::<i32>` as used by `Event::parse`: an optional leading
sign followed by one or more ASCII digits, with the value required to fit in
`i32`; anything else fails. -/
def parseI32 (s : String) : Option Int :=
  match s.toList with
  | '+' :: rest => parseDigits 1 rest
  | '-' :: rest => parseDigits (-1) rest
  | cs => parseDigits 1 cs

/-- `Event::parse` from `src/examples/simple_dispatcher.rs`.  The source calls
`value.parse().unwrap()` on the `set_value` argument: an unparseable argument
panics rather than producing `None`.  The panic is modelled as
`Except.error ()`; the normal return is `Except.ok (some event)` or
`Except.ok none` for unrecognized input. -/
def Event.parse (input : List String) : Except Unit (Option Event) :=
  match input with
  | ["ping"] => Except.ok (some Event.Ping)
  | ["set_value", value] =>
    match parseI32 value with
    | some n => Except.ok (some (Event.SetValue ⟨n⟩))
    | none => Except.error ()
  | ["print"] => Except.ok (some Event.PrintValue)
  | _ => Except.ok none

/-- The `Parseable<SetValueEvent> for Event` narrowing from
`src/examples/simple_dispatcher.rs`: the `SetValue` variant narrows to its
payload with rest `()`, every other variant is returned unchanged in `Err`. -/
def Event.parseToSetValue : Event → Except Event (SetValueEvent × Unit)
  | Event.SetValue e => Except.ok (e, ())
  | e => Except.error e

/-- The `Parseable<SetValueEvent> for Event` recombination from
`src/examples/simple_dispatcher.rs`: rebuilds the `SetValue` variant from the
narrowed payload. -/
def Event.recombineSetValue (data : SetValueEvent × Unit) : Event :=
  Event.SetValue data.1

/-- A handler of the example's shape: the shared `AtomicI32` store is threaded
as an explicit `Int` state beside the event, and the outcome is `Break` with
the output string or `Continue` handing the event back to the next sibling. -/
abbrev EHandler := Int → Event → Int × CtrlFlow String Event

/-- Modelled from the spec: the `Filter` combinator (not under `src/`) gates
on a predicate over the event; when the predicate is false it continues with
the event unchanged and the inner handler is not invoked. -/
def filterH (p : Event → Bool) (inner : EHandler) : EHandler :=
  fun s e => if p e then inner s e else (s, CtrlFlow.Continue e)

/-- Modelled from the spec: the `Parser` combinator (not under `src/`)
narrows the event via `Parseable`; on success the inner handler sees the
narrowed event, and a `Continue` from it is recombined back to the original
event type for the next sibling; on narrowing failure it continues with the
event unchanged and the inner handler is not invoked. -/
def parserH (inner : Int → SetValueEvent → Int × CtrlFlow String SetValueEvent) :
    EHandler :=
  fun s e =>
    match e.parseToSetValue with
    | Except.ok (n, r) =>
      match inner s n with
      | (s2, CtrlFlow.Break out) => (s2, CtrlFlow.Break out)
      | (s2, CtrlFlow.Continue n2) =>
        (s2, CtrlFlow.Continue (Event.recombineSetValue (n2, r)))
    | Except.error e2 => (s, CtrlFlow.Continue e2)

/-- `ping_handler` from `src/examples/simple_dispatcher.rs`: filter on the
`Ping` variant, then an endpoint returning `"Pong"`. -/
def ping_handler : EHandler :=
  filterH (fun e => match e with | Event.Ping => true | _ => false)
    (fun s _ => (s, CtrlFlow.Break "Pong"))

/-- `set_value_handler` from `src/examples/simple_dispatcher.rs`: parse the
event to `SetValueEvent`, store the value, and return `"{value} stored"`. -/
def set_value_handler : EHandler :=
  parserH (fun _ n => (n.val, CtrlFlow.Break (toString n.val ++ " stored")))

/-- `print_value_handler` from `src/examples/simple_dispatcher.rs`: filter on
the `PrintValue` variant, then an endpoint returning the stored value,
formatted. -/
def print_value_handler : EHandler :=
  filterH (fun e => match e with | Event.PrintValue => true | _ => false)
    (fun s _ => (s, CtrlFlow.Break (toString s)))

/-- Modelled from the spec: node evaluation over the example's handlers —
first `Break` wins, `Continue` threads state and event to the next handler,
exhaustion continues with the final event. -/
def runNodeE (hs : List EHandler) (s : Int) (e : Event) :
    Int × CtrlFlow String Event :=
  match hs with
  | [] => (s, CtrlFlow.Continue e)
  | h :: rest =>
    match h s e with
    | (s2, CtrlFlow.Break out) => (s2, CtrlFlow.Break out)
    | (s2, CtrlFlow.Continue e2) => runNodeE rest s2 e2

/-- The dispatcher assembled in `main` of `src/examples/simple_dispatcher.rs`:
the node chaining `ping_handler`, `set_value_handler`, `print_value_handler`
in that order. -/
def dispatcher : EHandler :=
  runNodeE [ping_handler, set_value_handler, print_value_handler]

/-- One REPL iteration of `main` from `src/examples/simple_dispatcher.rs`:
parse the tokens; a parse panic is `Except.error ()`; `None` prints
`"Unknown command"` without dispatching; `Some event` dispatches and
`.unwrap()`s the result, so a `Continue` outcome from the dispatcher is also
a panic (`Except.error ()`). -/
def driverStep (s : Int) (input : List String) : Except Unit (Int × String) :=
  match Event.parse input with
  | Except.error _ => Except.error ()
  | Except.ok none => Except.ok (s, "Unknown command")
  | Except.ok (some e) =>
    match dispatcher s e with
    | (s2, CtrlFlow.Break out) => Except.ok (s2, out)
    | (_, CtrlFlow.Continue _) => Except.error ()

end SimpleDispatcher

namespace Dptree

/-- A handler that ignores the container and breaks with a fixed output. -/
def constBreak (n : Nat) : CHandler Nat where
  run := fun _ => Except.ok (CtrlFlow.Break n)
  sig := HandlerSignature.Other ∅ ∅ ∅

/-- A handler that always continues with the container unchanged. -/
def constCont : CHandler Nat where
  run := fun c => Except.ok (CtrlFlow.Continue c)
  sig := HandlerSignature.Other ∅ ∅ ∅

theorem extractArgs_isSome_of_mem (c : Container) :
    ∀ ts : List Nat, (∀ t ∈ ts, (Container.get c t).isSome) →
      (extractArgs c ts).isSome := by
  intro ts
  induction ts with
  | nil => intro _; simp [extractArgs]
  | cons t ts ih =>
    intro h
    have ht := h t (by simp)
    obtain ⟨v, hv⟩ := Option.isSome_iff_exists.mp ht
    have hts := ih (fun u hu => h u (by simp [hu]))
    obtain ⟨vs, hvs⟩ := Option.isSome_iff_exists.mp hts
    simp [extractArgs, hv, hvs]

theorem extractArgs_eq_none_of_missing (c : Container) :
    ∀ ts : List Nat, ∀ t ∈ ts, Container.get c t = none →
      extractArgs c ts = none := by
  intro ts
  induction ts with
  | nil => intro t ht; simp at ht
  | cons u ts ih =>
    intro t ht hm
    rcases List.mem_cons.mp ht with h | h
    · subst h; simp [extractArgs, hm]
    · cases hu : Container.get c u with
      | none => simp [extractArgs, hu]
      | some v => simp [extractArgs, hu, ih t h hm]

theorem runNode_append {O : Type} (hs1 hs2 : List (CHandler O)) (c : Container) :
    runNode (hs1 ++ hs2) c =
      match runNode hs1 c with
      | Except.ok (CtrlFlow.Continue c2) => runNode hs2 c2
      | r => r := by
  induction hs1 generalizing c with
  | nil => simp [runNode]
  | cons h rest ih =>
    simp only [List.cons_append, runNode]
    cases hr : h.run c with
    | error e => rfl
    | ok fl => cases fl with
      | Break o => rfl
      | Continue c2 => exact ih c2

end Dptree

namespace SimpleDispatcher

theorem dispatcher_break_exists (s : Int) (e : Event) :
    ∃ s2 out, dispatcher s e = (s2, CtrlFlow.Break out) := by
  cases e with
  | Ping => exact ⟨s, "Pong", rfl⟩
  | SetValue n => exact ⟨n.val, toString n.val ++ " stored", rfl⟩
  | PrintValue => exact ⟨s, toString s, rfl⟩

end SimpleDispatcher

open Dptree SimpleDispatcher

/-- C1: for every injectable function f and every container x, the handler
built by endpoint(f) returns Break of f applied to the arguments extracted
from x — extraction succeeds whenever every declared input type is present,
and the handler never returns Continue, whatever the container holds. -/
theorem c1_endpoint_always_breaks {O : Type} (f : Injectable O)
    (x : Container) (vs : List Nat) :
    ((∀ t ∈ f.input_types, (Container.get x t).isSome) →
      (extractArgs x f.input_types).isSome) ∧
    (extractArgs x f.input_types = some vs →
      (endpoint f).run x = Except.ok (CtrlFlow.Break (f.run vs))) ∧
    (∀ c2, (endpoint f).run x ≠ Except.ok (CtrlFlow.Continue c2)) := by
  refine ⟨fun h => extractArgs_isSome_of_mem x f.input_types h, fun h => ?_, fun c2 => ?_⟩
  · simp [Dptree.endpoint, Injectable.inject, h, Except.map]
  · cases hE : extractArgs x f.input_types <;>
      simp [Dptree.endpoint, Injectable.inject, hE, Except.map]

/-- Witness for C1 at a concrete injectable and container: the two declared
types 1 and 2 are present, extraction yields [10, 20], and the endpoint
breaks with their sum. -/
theorem c1_endpoint_always_breaks_witness :
    extractArgs [(1, 10), (2, 20)]
        (Injectable.mk [1, 2] List.sum : Injectable Nat).input_types = some [10, 20] ∧
    (endpoint (Injectable.mk [1, 2] List.sum : Injectable Nat)).run [(1, 10), (2, 20)] =
      Except.ok (CtrlFlow.Break 30) :=
  ⟨rfl,
    (c1_endpoint_always_breaks (Injectable.mk [1, 2] List.sum)
      [(1, 10), (2, 20)] [10, 20]).2.1 rfl⟩

/-- C4: a container missing at least one type among f's obligations makes
endpoint(f) fail with DependencyMissing — no default value is substituted and
no silent Continue happens. -/
theorem c4_missing_dependency_fails {O : Type} (f : Injectable O)
    (x : Container) (t : Nat) (ht : t ∈ f.obligations)
    (hm : Container.get x t = none) :
    (endpoint f).run x = Except.error DispatchError.DependencyMissing := by
  have hnone : extractArgs x f.input_types = none :=
    extractArgs_eq_none_of_missing x f.input_types t ht hm
  simp [Dptree.endpoint, Injectable.inject, hnone, Except.map]

/-- Witness for C4: the injectable requires type 5, the empty container lacks
it, and the endpoint reports DependencyMissing. -/
theorem c4_missing_dependency_fails_witness :
    5 ∈ (Injectable.mk [5] List.sum : Injectable Nat).obligations ∧
    Container.get [] 5 = none ∧
    (endpoint (Injectable.mk [5] List.sum : Injectable Nat)).run [] =
      Except.error DispatchError.DependencyMissing :=
  ⟨by simp [Injectable.obligations], rfl,
    c4_missing_dependency_fails (Injectable.mk [5] List.sum) [] 5
      (by simp [Injectable.obligations]) rfl⟩

/-- C8: endpoint(f) carries from construction the signature
HandlerSignature.Other with input_types F::input_types(), empty output_types,
and obligations F::obligations(); the handler's outcome is determined by the
injection of f alone, so the metadata never influences the Break result. -/
theorem c8_endpoint_signature {O : Type} (f : Injectable O) :
    (endpoint f).sig =
      HandlerSignature.Other f.input_types.toFinset ∅ f.obligations.toFinset ∧
    ∀ x, (endpoint f).run x =
      (f.inject x).map (fun g => CtrlFlow.Break (g ())) :=
  ⟨rfl, fun _ => rfl⟩

/-- C2: a node assembled with node().and(h1)...and(hn).build() keeps its
handlers in declaration order and runs them left to right: a prefix of the
chain that breaks fixes the result whatever comes after it, the head's Break
is returned at once, a Continue threads its container to the tail, handlers
that always continue make the whole node continue, and swapping two handlers
that both break changes the observed result. -/
theorem c2_node_first_break_wins :
    (∀ (O : Type) (b : NodeBuilder O) (h : CHandler O),
      (b.and h).handlers = b.handlers ++ [h]) ∧
    (∀ (O : Type) (b : NodeBuilder O) (c : Container),
      b.build.run c = runNode b.handlers c) ∧
    (∀ (O : Type) (hs1 hs2 : List (CHandler O)) (c : Container),
      runNode (hs1 ++ hs2) c =
        match runNode hs1 c with
        | Except.ok (CtrlFlow.Continue c2) => runNode hs2 c2
        | r => r) ∧
    (∀ (O : Type) (h : CHandler O) (rest : List (CHandler O)) (c : Container)
        (o : O), h.run c = Except.ok (CtrlFlow.Break o) →
      runNode (h :: rest) c = Except.ok (CtrlFlow.Break o)) ∧
    (∀ (O : Type) (h : CHandler O) (rest : List (CHandler O))
        (c c2 : Container), h.run c = Except.ok (CtrlFlow.Continue c2) →
      runNode (h :: rest) c = runNode rest c2) ∧
    (∀ (O : Type) (hs : List (CHandler O)) (c : Container),
      (∀ h ∈ hs, ∀ x : Container, ∃ x2,
        h.run x = Except.ok (CtrlFlow.Continue x2)) →
      ∃ c2, runNode hs c = Except.ok (CtrlFlow.Continue c2)) ∧
    ((∃ o1, (constBreak 1).run [] = Except.ok (CtrlFlow.Break o1)) ∧
      (∃ o2, (constBreak 2).run [] = Except.ok (CtrlFlow.Break o2)) ∧
      runNode [constBreak 1, constBreak 2] [] ≠
        runNode [constBreak 2, constBreak 1] []) := by
  refine ⟨fun O b h => rfl, fun O b c => rfl,
    fun O hs1 hs2 c => runNode_append hs1 hs2 c,
    fun O h rest c o hb => by simp [Dptree.runNode, hb],
    fun O h rest c c2 hc => by simp [Dptree.runNode, hc],
    fun O hs c hall => ?_, ⟨1, rfl⟩, ⟨2, rfl⟩, by simp [Dptree.runNode, Dptree.constBreak]⟩
  induction hs generalizing c with
  | nil => exact ⟨c, rfl⟩
  | cons h rest ih =>
    obtain ⟨c2, hc⟩ := hall h (by simp) c
    obtain ⟨c3, hc3⟩ := ih c2 (fun g hg => hall g (by simp [hg]))
    exact ⟨c3, by simp [Dptree.runNode, hc, hc3]⟩

/-- Witness for C2 at concrete handlers: a breaking head short-circuits, a
continuing head hands over to the tail. -/
theorem c2_node_first_break_wins_witness :
    runNode [constBreak 7, constBreak 8] [] = Except.ok (CtrlFlow.Break 7) ∧
    runNode [constCont, constBreak 8] [] = runNode [constBreak 8] [] ∧
    (runNode [constCont] []).isOk = true := by
  refine ⟨c2_node_first_break_wins.2.2.2.1 Nat (constBreak 7) [constBreak 8] [] 7 rfl,
    c2_node_first_break_wins.2.2.2.2.1 Nat constCont [constBreak 8] [] [] rfl, ?_⟩
  obtain ⟨c2, hc⟩ := c2_node_first_break_wins.2.2.2.2.2.1 Nat [constCont] []
    (fun h hm x => by
      rw [List.mem_singleton.mp hm]
      exact ⟨x, rfl⟩)
  rw [hc]
  rfl

/-- C3: with the shared counter at 0, the example dispatcher answers Ping
with "Pong", PrintValue with "0", SetValue(123) with "123 stored" leaving the
counter at 123, and a subsequent PrintValue with "123". -/
theorem c3_scenario_trace :
    dispatcher 0 Event.Ping = (0, CtrlFlow.Break "Pong") ∧
    dispatcher 0 Event.PrintValue = (0, CtrlFlow.Break "0") ∧
    dispatcher 0 (Event.SetValue ⟨123⟩) = (123, CtrlFlow.Break "123 stored") ∧
    dispatcher 123 Event.PrintValue = (123, CtrlFlow.Break "123") :=
  ⟨rfl, rfl, rfl, rfl⟩

/-- C5: the narrowing round-trip — whenever Parseable parse on an Event
succeeds with (n, r), recombine (n, r) rebuilds an event equal to the
original. -/
theorem c5_narrow_roundtrip (e : Event) (n : SetValueEvent) (r : Unit)
    (h : e.parseToSetValue = Except.ok (n, r)) :
    Event.recombineSetValue (n, r) = e := by
  cases e with
  | Ping => simp [Event.parseToSetValue] at h
  | PrintValue => simp [Event.parseToSetValue] at h
  | SetValue x =>
    simp [Event.parseToSetValue] at h
    simp [Event.recombineSetValue, h]

/-- Witness for C5 at the concrete event SetValue(7). -/
theorem c5_narrow_roundtrip_witness :
    Event.parseToSetValue (Event.SetValue ⟨7⟩) = Except.ok (⟨7⟩, ()) ∧
    Event.recombineSetValue (⟨7⟩, ()) = Event.SetValue ⟨7⟩ :=
  ⟨rfl, c5_narrow_roundtrip (Event.SetValue ⟨7⟩) ⟨7⟩ () rfl⟩

/-- C6: narrowing failure preserves the event — every Event that is not the
SetValue variant parses to Err of the original event itself, and the parser
combinator then continues to the next sibling with the state and the event
unchanged, never invoking the inner handler. -/
theorem c6_narrow_failure_soft (e : Event) (h : ∀ n, e ≠ Event.SetValue n) :
    e.parseToSetValue = Except.error e ∧
    ∀ (inner : Int → SetValueEvent → Int × CtrlFlow String SetValueEvent)
      (s : Int), parserH inner s e = (s, CtrlFlow.Continue e) := by
  cases e with
  | Ping => exact ⟨rfl, fun inner s => rfl⟩
  | PrintValue => exact ⟨rfl, fun inner s => rfl⟩
  | SetValue n => exact absurd rfl (h n)

/-- Witness for C6 at the concrete event Ping, with a concrete inner handler
that would break if it were ever invoked. -/
theorem c6_narrow_failure_soft_witness :
    Event.parseToSetValue Event.Ping = Except.error Event.Ping ∧
    parserH (fun s _ => (s, CtrlFlow.Break "inner")) 0 Event.Ping =
      (0, CtrlFlow.Continue Event.Ping) :=
  ⟨(c6_narrow_failure_soft Event.Ping (fun n h => by cases h)).1,
    (c6_narrow_failure_soft Event.Ping (fun n h => by cases h)).2
      (fun s _ => (s, CtrlFlow.Break "inner")) 0⟩

/-- C9: every Event value the example can produce is matched by some handler
of the root node — dispatch always ends in Break with a String, so the unwrap
at the call site never sees an exhausted dispatch. -/
theorem c9_dispatch_never_exhausts :
    (∀ (s : Int) (e : Event), ∃ s2 out,
      dispatcher s e = (s2, CtrlFlow.Break out)) ∧
    (∀ (s : Int) (input : List String) (e : Event),
      Event.parse input = Except.ok (some e) →
      ∃ s2 out, driverStep s input = Except.ok (s2, out)) := by
  refine ⟨dispatcher_break_exists, fun s input e h => ?_⟩
  obtain ⟨s2, out, hd⟩ := dispatcher_break_exists s e
  exact ⟨s2, out, by simp [SimpleDispatcher.driverStep, h, hd]⟩

/-- Witness for C9 at the concrete input "ping": it parses to Ping and the
driver step succeeds. -/
theorem c9_dispatch_never_exhausts_witness :
    Event.parse ["ping"] = Except.ok (some Event.Ping) ∧
    (driverStep 0 ["ping"]).isOk = true := by
  refine ⟨rfl, ?_⟩
  obtain ⟨s2, out, hd⟩ := c9_dispatch_never_exhausts.2 0 ["ping"] Event.Ping rfl
  rw [hd]
  rfl

/-- C7 counterexample: the input ["foo"] is surfaced as "Unknown command",
yet Event::parse produced no event for it, so nothing was dispatched and no
node exhaustion occurred — the string does not report NoHandlerMatched. -/
theorem c7_unknown_command_counterexample :
    driverStep 0 ["foo"] = Except.ok (0, "Unknown command") ∧
    Event.parse ["foo"] = Except.ok none :=
  ⟨rfl, rfl⟩

/-- C7 amended: "Unknown command" is produced exactly when the raw input
parses to no Event, before any dispatch and with the counter untouched; input
that does parse to an event is always dispatched to a Break outcome, so the
outermost node never exhausts and the unwrap (which would panic on
exhaustion) never fires. -/
theorem c7_unknown_command_semantics :
    (∀ (s : Int) (input : List String), Event.parse input = Except.ok none →
      driverStep s input = Except.ok (s, "Unknown command")) ∧
    (∀ (s : Int) (input : List String) (e : Event),
      Event.parse input = Except.ok (some e) →
      ∃ s2 out, driverStep s input = Except.ok (s2, out) ∧
        dispatcher s e = (s2, CtrlFlow.Break out)) := by
  refine ⟨fun s input h => by simp [SimpleDispatcher.driverStep, h],
    fun s input e h => ?_⟩
  obtain ⟨s2, out, hd⟩ := dispatcher_break_exists s e
  exact ⟨s2, out, by simp [SimpleDispatcher.driverStep, h, hd], hd⟩

/-- Witness for the amended C7 at the concrete input "bogus" with counter 5:
it parses to no event and is surfaced as "Unknown command". -/
theorem c7_unknown_command_semantics_witness :
    Event.parse ["bogus"] = Except.ok none ∧
    driverStep 5 ["bogus"] = Except.ok (5, "Unknown command") :=
  ⟨rfl, c7_unknown_command_semantics.1 5 ["bogus"] rfl⟩

/-- C10: under the precondition that a "set_value" argument is a valid
decimal i32, Event::parse never panics and returns Some exactly for
["ping"], ["set_value", s] and ["print"]; without the precondition, the
internal unwrap panics on ["set_value", "abc"] instead of returning None. -/
theorem c10_event_parse_totality :
    (∀ input : List String,
      (∀ s, input = ["set_value", s] → (parseI32 s).isSome) →
      ∃ r, Event.parse input = Except.ok r ∧
        (r.isSome ↔ (input = ["ping"] ∨ (∃ s, input = ["set_value", s]) ∨
          input = ["print"]))) ∧
    Event.parse ["set_value", "abc"] = Except.error () := by
  refine ⟨fun input hpre => ?_, rfl⟩
  unfold SimpleDispatcher.Event.parse
  split
  · exact ⟨some Event.Ping, rfl, by simp⟩
  · next value =>
    have hs := hpre value rfl
    obtain ⟨n, hn⟩ := Option.isSome_iff_exists.mp hs
    rw [hn]
    exact ⟨some (Event.SetValue ⟨n⟩), rfl, by simp⟩
  · exact ⟨some Event.PrintValue, rfl, by simp⟩
  · next h1 h2 h3 =>
    refine ⟨none, rfl, ?_⟩
    simp only [Option.isSome_none, Bool.false_eq_true, false_iff]
    rintro (h | ⟨s, h⟩ | h)
    · exact h1 h
    · exact h2 s h
    · exact h3 h

/-- Witness for C10 at the concrete input ["set_value", "7"]: the argument is
a valid i32, so parsing succeeds without a panic. -/
theorem c10_event_parse_totality_witness :
    (parseI32 "7").isSome = true ∧ (Event.parse ["set_value", "7"]).isOk = true := by
  refine ⟨rfl, ?_⟩
  obtain ⟨r, hr, -⟩ := c10_event_parse_totality.1 ["set_value", "7"]
    (fun s hs => by
      injection hs with h1 h2
      injection h2 with h3 h4
      rw [← h3]
      rfl)
  rw [hr]
  rfl
